import Mathlib

/-!
# Upstream HTTP session core — verification of the drain/GOAWAY, egress-pause,
# upgrade, server-push and error-message behaviour

The repository ships the test suite of the upstream HTTP session
(`proxygen/lib/http/session/test/HTTPUpstreamSessionTest.cpp`) together with
`CodecUtil.cpp`; the session implementation itself (`HTTPSession.cpp`,
`HTTPUpstreamSession.cpp`) is not part of the sources.  The definitions below
therefore model the session from the specification (`spec.md`), with every
observable that the shipped tests pin down (error-message strings, event
orders, wire-byte orders, stream caps) taken from the test assertions.
-/

namespace Upstream

/-- Modelled from the spec: codec error codes carried on GOAWAY frames
(§4.1 *onGoaway*, §7).  Only the codes exercised by the session tests are
listed. -/
inductive ErrorCode
  | NO_ERROR
  | PROTOCOL_ERROR
  | INTERNAL_ERROR
  | REFUSED_STREAM
  | SPDY_INVALID_STREAM
  deriving DecidableEq, Repr

/-- Printable name of an error code, as it appears in error messages
(`IngressGoawaySessionError` asserts the literal `PROTOCOL_ERROR`). -/
def ErrorCode.name : ErrorCode → String
  | .NO_ERROR => "NO_ERROR"
  | .PROTOCOL_ERROR => "PROTOCOL_ERROR"
  | .INTERNAL_ERROR => "INTERNAL_ERROR"
  | .REFUSED_STREAM => "REFUSED_STREAM"
  | .SPDY_INVALID_STREAM => "_SPDY_INVALID_STREAM"

/-- Modelled from the spec: the three-phase drain state, §3 `DrainState`
(`phase ∈ {Open, Draining, Closed}`). -/
inductive DrainPhase
  | Open
  | Draining
  | Closed
  deriving DecidableEq, Repr

/-- Observable events the session delivers to transaction handlers, in
delivery order (§4.1 ingress dispatch, §6 transaction interface). -/
inductive Event
  | onGoaway (txn : Nat)
  | onError (txn : Nat) (msg : String)
  | detach (txn : Nat)
  | sentHeaders (txn : Nat)
  | onHeadersComplete (txn : Nat) (status : Nat)
  | onEOM (txn : Nat)
  deriving DecidableEq, Repr

/-- Modelled from the spec: the session state needed by the drain/GOAWAY
protocol (§3 data model: transaction map, drain state; §4.5 DrainManager).
`txns` holds the stream ids of open transactions, kept in creation order;
locally-minted ids are odd and strictly monotonic (§3 invariant 4).
`events` is the trace of handler callbacks delivered so far. -/
structure Session where
  txns : List Nat
  phase : DrainPhase
  lastReceivedGood : Option Nat
  nextStreamId : Nat
  events : List Event
  deriving DecidableEq, Repr

/-- Modelled from the spec: the error message surfaced with a
`StreamUnacknowledged` abort (§7 message format, §4.1 *onGoaway*: `if
errorCode ≠ NO_ERROR, the error message appends " with codec error: <name>"`).
The exact strings are pinned by the assertions in
`SPDY3UpstreamSessionTest.IngressGoawayAbortUncreatedStreams` and
`IngressGoawaySessionError`. -/
def goawayErrorMessage (txnId : Nat) (err : ErrorCode) : String :=
  let base := "StreamUnacknowledged on transaction id: " ++ toString txnId
  if err = .NO_ERROR then base else base ++ " with codec error: " ++ err.name

/-- Modelled from the spec: `onGoaway(lastGood, errorCode)` ingress dispatch
(§4.1): move to Draining, record `lastGood` without ever regressing it
upward, deliver `onGoaway` to every open transaction, then abort with
`StreamUnacknowledged` (error followed by detach) every transaction whose
locally-minted id exceeds `lastGood`.  Event order follows the `InSequence`
expectations of `MockHTTP2UpstreamTest.ReceiveDoubleGoaway`. -/
def Session.onGoaway (s : Session) (lastGood : Nat) (err : ErrorCode) : Session :=
  let goawayEvents := s.txns.map Event.onGoaway
  let dead := s.txns.filter (fun id => decide (lastGood < id))
  let deadEvents := dead.flatMap
    (fun id => [Event.onError id (goawayErrorMessage id err), Event.detach id])
  { txns := s.txns.filter (fun id => decide (id ≤ lastGood))
    phase := if s.phase = .Open then .Draining else s.phase
    lastReceivedGood := some (match s.lastReceivedGood with
      | none => lastGood
      | some old => min old lastGood)
    nextStreamId := s.nextStreamId
    events := s.events ++ goawayEvents ++ deadEvents }

/-- Modelled from the spec: `drain()` (§4.1): move to Draining; subsequent
`newTransaction` calls return null; existing transactions complete
normally. -/
def Session.drain (s : Session) : Session :=
  { s with phase := if s.phase = .Open then .Draining else s.phase }

/-- Modelled from the spec: `newTransaction(handler)` (§4.1, §3 invariant 5):
returns null once the session is draining (or closed); otherwise mints the
next odd stream id from the codec and registers the transaction. -/
def Session.newTransaction (s : Session) : Option (Nat × Session) :=
  if s.phase = .Open then
    some (s.nextStreamId,
      { s with txns := s.txns ++ [s.nextStreamId],
               nextStreamId := s.nextStreamId + 2 })
  else none

/-- Modelled from the spec: a transaction sending its request headers
(§4.1 egress coordination); only an open (still-registered) transaction may
send. -/
def Session.sendHeaders (s : Session) (id : Nat) : Option Session :=
  if id ∈ s.txns then
    some { s with events := s.events ++ [Event.sentHeaders id] }
  else none

/-- Modelled from the spec: *onHeadersComplete* for a known transaction
(§4.1 ingress dispatch) — the response headers are forwarded to it. -/
def Session.onHeadersComplete (s : Session) (id status : Nat) : Session :=
  if id ∈ s.txns then
    { s with events := s.events ++ [Event.onHeadersComplete id status] }
  else s

/-- Modelled from the spec: *onMessageComplete* (§4.1): EOM is forwarded to
the transaction, which then detaches normally. -/
def Session.onMessageComplete (s : Session) (id : Nat) : Session :=
  if id ∈ s.txns then
    { s with txns := s.txns.filter (fun x => decide (x ≠ id)),
             events := s.events ++ [Event.onEOM id, Event.detach id] }
  else s

/-- The session operations an execution may interleave after a drain, used to
quantify over "every subsequent call". -/
inductive Op
  | goaway (lastGood : Nat) (err : ErrorCode)
  | drainOp
  | newTxn
  | sendHeadersOp (id : Nat)
  | headersComplete (id : Nat) (status : Nat)
  | messageComplete (id : Nat)
  deriving DecidableEq, Repr

/-- One step of the session under an operation (a refused `newTransaction`
leaves the state unchanged). -/
def Session.step (s : Session) : Op → Session
  | .goaway lastGood err => s.onGoaway lastGood err
  | .drainOp => s.drain
  | .newTxn => ((s.newTransaction).map Prod.snd).getD s
  | .sendHeadersOp id => (s.sendHeaders id).getD s
  | .headersComplete id status => s.onHeadersComplete id status
  | .messageComplete id => s.onMessageComplete id

/-- Run a list of operations from a state. -/
def Session.run (s : Session) (ops : List Op) : Session :=
  ops.foldl Session.step s

/-- The drain phase never regresses to Open (§3: `DrainState` advances
monotonically). -/
theorem Session.step_phase_ne_open (s : Session) (op : Op)
    (h : s.phase ≠ .Open) : (s.step op).phase ≠ .Open := by
  cases op with
  | goaway lastGood err =>
      simp only [Session.step, Session.onGoaway]
      simp [if_neg h]
      intro hc
      exact h hc
  | drainOp =>
      simp only [Session.step, Session.drain, if_neg h]
      intro hc
      exact h hc
  | newTxn =>
      have hnone : s.newTransaction = none := by
        rw [Session.newTransaction, if_neg h]
      simp only [Session.step, hnone, Option.map_none, Option.getD_none]
      exact h
  | sendHeadersOp id =>
      simp only [Session.step, Session.sendHeaders]
      split
      · simp
        exact h
      · simp
        exact h
  | headersComplete id status =>
      simp only [Session.step, Session.onHeadersComplete]
      split
      · exact h
      · exact h
  | messageComplete id =>
      simp only [Session.step, Session.onMessageComplete]
      split
      · exact h
      · exact h

/-- The drain phase stays away from Open under any run. -/
theorem Session.run_phase_ne_open (s : Session) (ops : List Op)
    (h : s.phase ≠ .Open) : (s.run ops).phase ≠ .Open := by
  induction ops generalizing s with
  | nil => exact h
  | cons op rest ih => exact ih (s.step op) (s.step_phase_ne_open op h)

/-- Events already delivered are preserved by a GOAWAY. -/
theorem Session.onGoaway_events_mono (s : Session) (lg : Nat) (err : ErrorCode)
    (e : Event) (h : e ∈ s.events) : e ∈ (s.onGoaway lg err).events := by
  simp only [Session.onGoaway, List.mem_append]
  exact Or.inl (Or.inl h)

/-- Membership in the transaction map after a GOAWAY: survivors are exactly
the transactions at or below `lastGood`. -/
theorem Session.mem_txns_onGoaway (s : Session) (lg : Nat) (err : ErrorCode)
    (id : Nat) : id ∈ (s.onGoaway lg err).txns ↔ id ∈ s.txns ∧ id ≤ lg := by
  simp [Session.onGoaway, List.mem_filter]

/-- Every open transaction receives `onGoaway` when a GOAWAY arrives. -/
theorem Session.onGoaway_delivers_goaway (s : Session) (lg : Nat)
    (err : ErrorCode) (id : Nat) (h : id ∈ s.txns) :
    Event.onGoaway id ∈ (s.onGoaway lg err).events := by
  simp only [Session.onGoaway, List.mem_append]
  exact Or.inl (Or.inr (List.mem_map_of_mem Event.onGoaway h))

/-- A transaction above `lastGood` receives the `StreamUnacknowledged` error
and detaches when a GOAWAY arrives. -/
theorem Session.onGoaway_aborts_unacked (s : Session) (lg : Nat)
    (err : ErrorCode) (id : Nat) (h : id ∈ s.txns) (hgt : lg < id) :
    Event.onError id (goawayErrorMessage id err) ∈ (s.onGoaway lg err).events ∧
    Event.detach id ∈ (s.onGoaway lg err).events := by
  have hdead : id ∈ s.txns.filter (fun x => decide (lg < x)) := by
    simp [List.mem_filter, h, hgt]
  constructor
  · simp only [Session.onGoaway, List.mem_append, List.mem_flatMap]
    exact Or.inr ⟨id, hdead, by simp⟩
  · simp only [Session.onGoaway, List.mem_append, List.mem_flatMap]
    exact Or.inr ⟨id, hdead, by simp⟩

/-- A GOAWAY surfaces no error on a transaction whose id is at or below
`lastGood`. -/
theorem Session.onGoaway_no_error_of_le (s : Session) (lg : Nat)
    (err : ErrorCode) (id : Nat) (hle : id ≤ lg)
    (hprev : ∀ m, Event.onError id m ∉ s.events) :
    ∀ m, Event.onError id m ∉ (s.onGoaway lg err).events := by
  intro m hmem
  simp only [Session.onGoaway, List.mem_append, List.mem_map,
    List.mem_flatMap] at hmem
  rcases hmem with (h0 | h1) | h2
  · exact hprev m h0
  · rcases h1 with ⟨x, _, hx⟩
    cases hx
  · rcases h2 with ⟨x, hxdead, hx⟩
    have hxgt : lg < x := by
      simp only [List.mem_filter, decide_eq_true_eq] at hxdead
      exact hxdead.2
    simp only [List.mem_cons, List.not_mem_nil] at hx
    rcases hx with hx | hx | hx
    · cases hx
      omega
    · cases hx
    · cases hx

/-- C1: after a first GOAWAY every open transaction receives `onGoaway`; a
second GOAWAY with a smaller `lastGood` is also accepted and delivered to
every still-open transaction; transactions whose locally-minted id is at or
below the second `lastGood` survive both GOAWAYs and may still send headers,
while every transaction above the second `lastGood` receives the
`StreamUnacknowledged` error and detaches. -/
theorem receiveDoubleGoaway_narrows_survivors (s : Session) (lg1 lg2 : Nat)
    (hle : lg2 ≤ lg1) :
    (∀ id ∈ s.txns, Event.onGoaway id ∈ (s.onGoaway lg1 .NO_ERROR).events) ∧
    (∀ id ∈ (s.onGoaway lg1 .NO_ERROR).txns,
      Event.onGoaway id ∈
        ((s.onGoaway lg1 .NO_ERROR).onGoaway lg2 .NO_ERROR).events) ∧
    (∀ id ∈ s.txns, id ≤ lg2 →
      id ∈ ((s.onGoaway lg1 .NO_ERROR).onGoaway lg2 .NO_ERROR).txns ∧
      ((((s.onGoaway lg1 .NO_ERROR).onGoaway lg2 .NO_ERROR)).sendHeaders
        id).isSome = true) ∧
    (∀ id ∈ s.txns, lg2 < id →
      id ∉ ((s.onGoaway lg1 .NO_ERROR).onGoaway lg2 .NO_ERROR).txns ∧
      Event.onError id (goawayErrorMessage id .NO_ERROR) ∈
        ((s.onGoaway lg1 .NO_ERROR).onGoaway lg2 .NO_ERROR).events ∧
      Event.detach id ∈
        ((s.onGoaway lg1 .NO_ERROR).onGoaway lg2 .NO_ERROR).events) := by
  refine ⟨?_, ?_, ?_, ?_⟩
  · intro id hid
    exact s.onGoaway_delivers_goaway lg1 .NO_ERROR id hid
  · intro id hid
    exact (s.onGoaway lg1 .NO_ERROR).onGoaway_delivers_goaway lg2 .NO_ERROR id hid
  · intro id hid hle2
    have h1 : id ∈ (s.onGoaway lg1 .NO_ERROR).txns :=
      (s.mem_txns_onGoaway lg1 .NO_ERROR id).mpr ⟨hid, le_trans hle2 hle⟩
    have h2 : id ∈ ((s.onGoaway lg1 .NO_ERROR).onGoaway lg2 .NO_ERROR).txns :=
      ((s.onGoaway lg1 .NO_ERROR).mem_txns_onGoaway lg2 .NO_ERROR id).mpr
        ⟨h1, hle2⟩
    refine ⟨h2, ?_⟩
    simp [Session.sendHeaders, h2]
  · intro id hid hgt2
    constructor
    · intro hmem
      have := ((s.onGoaway lg1 .NO_ERROR).mem_txns_onGoaway lg2 .NO_ERROR
        id).mp hmem
      omega
    · by_cases hgt1 : lg1 < id
      · have habort := s.onGoaway_aborts_unacked lg1 .NO_ERROR id hid hgt1
        exact ⟨(s.onGoaway lg1 .NO_ERROR).onGoaway_events_mono lg2 .NO_ERROR
            _ habort.1,
          (s.onGoaway lg1 .NO_ERROR).onGoaway_events_mono lg2 .NO_ERROR
            _ habort.2⟩
      · have h1 : id ∈ (s.onGoaway lg1 .NO_ERROR).txns :=
          (s.mem_txns_onGoaway lg1 .NO_ERROR id).mpr ⟨hid, by omega⟩
        exact (s.onGoaway lg1 .NO_ERROR).onGoaway_aborts_unacked lg2
          .NO_ERROR id h1 hgt2

/-- C1 witness: the scenario of `MockHTTP2UpstreamTest.ReceiveDoubleGoaway`
(transactions 1 and 3; GOAWAY with lastGood 101, then GOAWAY with lastGood 1):
both transactions receive `onGoaway` from the first GOAWAY, transaction 1
survives both GOAWAYs and may still send headers, and transaction 3 receives
`StreamUnacknowledged on transaction id: 3` and detaches. -/
theorem receiveDoubleGoaway_narrows_survivors_witness :
    Event.onGoaway 1 ∈
      ((⟨[1, 3], .Open, none, 5, []⟩ : Session).onGoaway 101 .NO_ERROR).events ∧
    Event.onGoaway 3 ∈
      ((⟨[1, 3], .Open, none, 5, []⟩ : Session).onGoaway 101 .NO_ERROR).events ∧
    1 ∈ (((⟨[1, 3], .Open, none, 5, []⟩ : Session).onGoaway 101
        .NO_ERROR).onGoaway 1 .NO_ERROR).txns ∧
    (((((⟨[1, 3], .Open, none, 5, []⟩ : Session).onGoaway 101
        .NO_ERROR).onGoaway 1 .NO_ERROR)).sendHeaders 1).isSome = true ∧
    3 ∉ (((⟨[1, 3], .Open, none, 5, []⟩ : Session).onGoaway 101
        .NO_ERROR).onGoaway 1 .NO_ERROR).txns ∧
    Event.onError 3 "StreamUnacknowledged on transaction id: 3" ∈
      (((⟨[1, 3], .Open, none, 5, []⟩ : Session).onGoaway 101
        .NO_ERROR).onGoaway 1 .NO_ERROR).events ∧
    Event.detach 3 ∈
      (((⟨[1, 3], .Open, none, 5, []⟩ : Session).onGoaway 101
        .NO_ERROR).onGoaway 1 .NO_ERROR).events := by
  have h := receiveDoubleGoaway_narrows_survivors
    ⟨[1, 3], .Open, none, 5, []⟩ 101 1 (by decide)
  have hmsg : goawayErrorMessage 3 .NO_ERROR =
      "StreamUnacknowledged on transaction id: 3" := by rfl
  refine ⟨h.1 1 (by decide), h.1 3 (by decide),
    (h.2.2.1 1 (by decide) (by decide)).1,
    (h.2.2.1 1 (by decide) (by decide)).2,
    (h.2.2.2 3 (by decide) (by decide)).1,
    hmsg ▸ (h.2.2.2 3 (by decide) (by decide)).2.1,
    (h.2.2.2 3 (by decide) (by decide)).2.2⟩

/-- C2: once the drain phase is Draining — entered either by `drain()` or by
receiving a GOAWAY — every subsequent `newTransaction` call (after any
further sequence of operations) returns null, while a transaction that
already exists with stream id at or below the peer's `lastGood` survives the
GOAWAY and continues to completion (EOM delivered, normal detach, no error
surfaced on it). -/
theorem draining_blocks_new_transactions (s : Session) (lg : Nat)
    (err : ErrorCode) (ops1 ops2 : List Op) (id : Nat)
    (hOpen : s.phase = .Open) (hid : id ∈ s.txns) (hle : id ≤ lg)
    (hnoerr : ∀ m, Event.onError id m ∉ s.events) :
    (s.drain).phase = .Draining ∧
    (s.onGoaway lg err).phase = .Draining ∧
    ((s.drain).run ops1).newTransaction = none ∧
    ((s.onGoaway lg err).run ops2).newTransaction = none ∧
    id ∈ (s.onGoaway lg err).txns ∧
    Event.onEOM id ∈
      (((s.onGoaway lg err).onHeadersComplete id 200).onMessageComplete
        id).events ∧
    Event.detach id ∈
      (((s.onGoaway lg err).onHeadersComplete id 200).onMessageComplete
        id).events ∧
    (∀ m, Event.onError id m ∉
      (((s.onGoaway lg err).onHeadersComplete id 200).onMessageComplete
        id).events) := by
  have hdrain : (s.drain).phase = .Draining := by
    simp [Session.drain, hOpen]
  have hgophase : (s.onGoaway lg err).phase = .Draining := by
    simp [Session.onGoaway, hOpen]
  have hrun1 : ((s.drain).run ops1).phase ≠ .Open :=
    (s.drain).run_phase_ne_open ops1 (by rw [hdrain]; intro hc; cases hc)
  have hrun2 : ((s.onGoaway lg err).run ops2).phase ≠ .Open :=
    (s.onGoaway lg err).run_phase_ne_open ops2
      (by rw [hgophase]; intro hc; cases hc)
  have hsurv : id ∈ (s.onGoaway lg err).txns :=
    (s.mem_txns_onGoaway lg err id).mpr ⟨hid, hle⟩
  have hsurv2 : id ∈ ((s.onGoaway lg err).onHeadersComplete id 200).txns := by
    simp [Session.onHeadersComplete, hsurv]
  have hnoerr2 : ∀ m, Event.onError id m ∉ (s.onGoaway lg err).events :=
    s.onGoaway_no_error_of_le lg err id hle hnoerr
  refine ⟨hdrain, hgophase, ?_, ?_, hsurv, ?_, ?_, ?_⟩
  · rw [Session.newTransaction, if_neg hrun1]
  · rw [Session.newTransaction, if_neg hrun2]
  · simp [Session.onMessageComplete, hsurv2]
  · simp [Session.onMessageComplete, hsurv2]
  · intro m
    simp only [Session.onMessageComplete, hsurv2, if_pos,
      Session.onHeadersComplete, hsurv, List.mem_append]
    intro hmem
    rcases hmem with (h0 | h1) | h2
    · exact hnoerr2 m h0
    · simp at h1
    · simp at h2

/-- C2 witness: the scenario of `MockHTTPUpstreamTest.IngressGoawayDrain`
(one transaction with id 1, GOAWAY with lastGood 1): after the GOAWAY the
session is Draining, `newTransaction` returns null, and transaction 1
survives and completes normally with EOM and a clean detach. -/
theorem draining_blocks_new_transactions_witness :
    ((⟨[1], .Open, none, 3, []⟩ : Session).drain).phase = .Draining ∧
    ((⟨[1], .Open, none, 3, []⟩ : Session).onGoaway 1
      .NO_ERROR).phase = .Draining ∧
    (((⟨[1], .Open, none, 3, []⟩ : Session).drain).run []).newTransaction
      = none ∧
    (((⟨[1], .Open, none, 3, []⟩ : Session).onGoaway 1
      .NO_ERROR).run []).newTransaction = none ∧
    1 ∈ ((⟨[1], .Open, none, 3, []⟩ : Session).onGoaway 1 .NO_ERROR).txns ∧
    Event.onEOM 1 ∈
      ((((⟨[1], .Open, none, 3, []⟩ : Session).onGoaway 1
        .NO_ERROR).onHeadersComplete 1 200).onMessageComplete 1).events ∧
    Event.detach 1 ∈
      ((((⟨[1], .Open, none, 3, []⟩ : Session).onGoaway 1
        .NO_ERROR).onHeadersComplete 1 200).onMessageComplete 1).events ∧
    (∀ m, Event.onError 1 m ∉
      ((((⟨[1], .Open, none, 3, []⟩ : Session).onGoaway 1
        .NO_ERROR).onHeadersComplete 1 200).onMessageComplete 1).events) := by
  exact draining_blocks_new_transactions ⟨[1], .Open, none, 3, []⟩ 1
    .NO_ERROR [] [] 1 (by rfl) (by decide) (by decide) (by intro m; simp)

/-- The error message surfaced on an illegal ingress state transition,
pinned by the assertion at `MockHTTPUpstreamTest.HeadersThenBodyThenHeaders`
(`"Invalid ingress state transition, state=RegularBodyReceived,
event=onHeaders, streamID=1"`). -/
def ingressStateTransitionMessage (state event : String) (streamId : Nat) :
    String :=
  "Invalid ingress state transition, state=" ++ state ++ ", event=" ++ event ++
    ", streamID=" ++ toString streamId

/-- An error newly surfaced by a GOAWAY carries exactly the
`StreamUnacknowledged` message for its transaction id. -/
theorem Session.onGoaway_error_msg (s : Session) (lg : Nat) (err : ErrorCode)
    (id : Nat) (m : String)
    (hnew : Event.onError id m ∈ (s.onGoaway lg err).events)
    (hold : Event.onError id m ∉ s.events) :
    m = goawayErrorMessage id err := by
  simp only [Session.onGoaway, List.mem_append, List.mem_map,
    List.mem_flatMap] at hnew
  rcases hnew with (h0 | h1) | h2
  · exact absurd h0 hold
  · rcases h1 with ⟨x, _, hx⟩
    cases hx
  · rcases h2 with ⟨x, _, hx⟩
    simp only [List.mem_cons, List.not_mem_nil] at hx
    rcases hx with hx | hx | hx
    · cases hx
      rfl
    · cases hx
    · cases hx

/-- C8 amended: every error surfaced to a transaction by GOAWAY handling has
the message `"StreamUnacknowledged on transaction id: <N>"`, suffixed with
`" with codec error: <name>"` exactly when the GOAWAY's error code is not
`NO_ERROR`. -/
theorem goaway_message_follows_kind_id_format (s : Session) (lg : Nat)
    (err : ErrorCode) (id : Nat) (m : String)
    (hnew : Event.onError id m ∈ (s.onGoaway lg err).events)
    (hold : Event.onError id m ∉ s.events) :
    (∃ suffix,
      m = "StreamUnacknowledged on transaction id: " ++ toString id ++
        suffix) ∧
    (err = .NO_ERROR →
      m = "StreamUnacknowledged on transaction id: " ++ toString id) ∧
    (err ≠ .NO_ERROR →
      m = "StreamUnacknowledged on transaction id: " ++ toString id ++
        (" with codec error: " ++ err.name)) := by
  have hm := s.onGoaway_error_msg lg err id m hnew hold
  by_cases he : err = .NO_ERROR
  · subst he
    rw [hm]
    refine ⟨⟨"", ?_⟩, fun _ => ?_, fun hc => absurd rfl hc⟩
    · simp [goawayErrorMessage]
    · simp [goawayErrorMessage]
  · rw [hm]
    refine ⟨⟨" with codec error: " ++ err.name, ?_⟩,
      fun hc => absurd hc he, fun _ => ?_⟩
    · simp [goawayErrorMessage, if_neg he, String.append_assoc]
    · simp [goawayErrorMessage, if_neg he, String.append_assoc]

/-- C8 witness: in the scenario of
`SPDY3UpstreamSessionTest.IngressGoawaySessionError` (transaction 1, GOAWAY
with lastGood 0 and error code PROTOCOL_ERROR), the surfaced message is
`"StreamUnacknowledged on transaction id: 1 with codec error:
PROTOCOL_ERROR"`. -/
theorem goaway_message_follows_kind_id_format_witness :
    (∃ suffix,
      "StreamUnacknowledged on transaction id: 1 with codec error: PROTOCOL_ERROR" =
        "StreamUnacknowledged on transaction id: " ++ toString 1 ++
          suffix) ∧
    ((ErrorCode.PROTOCOL_ERROR = .NO_ERROR) →
      "StreamUnacknowledged on transaction id: 1 with codec error: PROTOCOL_ERROR" =
        "StreamUnacknowledged on transaction id: " ++ toString 1) ∧
    ((ErrorCode.PROTOCOL_ERROR ≠ .NO_ERROR) →
      "StreamUnacknowledged on transaction id: 1 with codec error: PROTOCOL_ERROR" =
        "StreamUnacknowledged on transaction id: " ++ toString 1 ++
          (" with codec error: " ++ ErrorCode.PROTOCOL_ERROR.name)) := by
  have h := goaway_message_follows_kind_id_format
    ⟨[1], .Open, none, 3, []⟩ 0 .PROTOCOL_ERROR 1
    "StreamUnacknowledged on transaction id: 1 with codec error: PROTOCOL_ERROR"
    (by decide) (by decide)
  exact h

/-- C8 counterexample: the `IngressStateTransition` error surfaced in
`MockHTTPUpstreamTest.HeadersThenBodyThenHeaders` does not follow the
claimed `"<Kind> on transaction id: <N>"` format, even allowing an arbitrary
suffix of codec detail. -/
theorem ingress_state_transition_breaks_format :
    ¬ ∃ suffix,
      ingressStateTransitionMessage "RegularBodyReceived" "onHeaders" 1 =
        "IngressStateTransition" ++ " on transaction id: " ++
          toString (1 : Nat) ++ suffix := by
  rintro ⟨suf, h⟩
  have hdata :
      (ingressStateTransitionMessage "RegularBodyReceived" "onHeaders"
        1).data =
      ("IngressStateTransition" ++ " on transaction id: " ++
        toString (1 : Nat)).data ++ suf.data := by
    rw [h, String.data_append]
  have hpre : List.isPrefixOf
      ("IngressStateTransition" ++ " on transaction id: " ++
        toString (1 : Nat)).data
      (ingressStateTransitionMessage "RegularBodyReceived" "onHeaders"
        1).data = true := by
    rw [List.isPrefixOf_iff_prefix]
    exact ⟨suf.data, hdata.symm⟩
  exact absurd hpre (by decide)

/-- Observable egress-side events a transaction handler sees (§6 transaction
interface: `onEgressPaused`, `onEgressResumed`, `onError`, detach), plus a
record of each egress enqueue a transaction performs. -/
inductive EgEvent
  | onEgressPaused (txn : Nat)
  | onEgressResumed (txn : Nat)
  | onError (txn : Nat)
  | detach (txn : Nat)
  | enqueued (txn : Nat) (bytes : Nat)
  deriving DecidableEq, Repr

/-- Modelled from the spec: the session state driving the egress-pause
machinery (§3 data model: write-buffer, configured limits, egress-paused
flag; §4.1 egress coordination).  `txns` is kept in stream-id order, the
order in which locally-minted ids are created (§3 invariant 4). -/
structure ESession where
  txns : List Nat
  buf : Nat
  limit : Nat
  paused : Bool
  closed : Bool
  destroyed : Bool
  nextStreamId : Nat
  events : List EgEvent
  deriving Repr

/-- Number of `onEgressPaused` notifications transaction `id` has seen. -/
def pauseCount (id : Nat) (evs : List EgEvent) : Nat :=
  evs.count (EgEvent.onEgressPaused id)

/-- Number of `onEgressResumed` notifications transaction `id` has seen. -/
def resumeCount (id : Nat) (evs : List EgEvent) : Nat :=
  evs.count (EgEvent.onEgressResumed id)

/-- The stream ids of the `onEgressResumed` notifications of a trace, in
delivery order. -/
def resumedIds (evs : List EgEvent) : List Nat :=
  evs.filterMap (fun e => match e with
    | EgEvent.onEgressResumed id => some id
    | _ => none)

/-- Modelled from the spec: flag egress-paused and notify every transaction
(§4.1: "If the write buffer size exceeds its limit, flags egress-paused and
notifies every transaction"). -/
def ESession.pauseAll (s : ESession) : ESession :=
  { s with paused := true,
           events := s.events ++ s.txns.map EgEvent.onEgressPaused }

/-- Modelled from the spec: the egress-resume iteration (§4.1 egress-pause
semantics): the session visits every transaction in stream-id order invoking
`onEgressResumed`; a handler may re-fill the pipe during its resume callback
(`refill id` is what the handler of `id` enqueues there).  The observable
order — every transaction gets its resume callback, with the re-pause
delivered after the iteration — follows the `InSequence` expectations of
`SPDY3UpstreamSessionTest.TestOverlimitResume`. -/
def resumeEvents (refill : Nat → Nat) (txns : List Nat) : List EgEvent :=
  txns.flatMap (fun id => EgEvent.onEgressResumed id ::
    (if refill id = 0 then [] else [EgEvent.enqueued id (refill id)]))

/-- Modelled from the spec: `newTransaction` on the egress side; a
transaction created while the session is egress-paused starts paused
(`NoFlushUpstreamSessionTest.SessionPausedStartPaused`: "If the session is
paused, new upstream transactions should start paused too"). -/
def ESession.newTransaction (s : ESession) : Option (Nat × ESession) :=
  if s.closed then none
  else some (s.nextStreamId,
    { s with txns := s.txns ++ [s.nextStreamId],
             nextStreamId := s.nextStreamId + 2,
             events := s.events ++
               (if s.paused then [EgEvent.onEgressPaused s.nextStreamId]
                else []) })

/-- Modelled from the spec: a transaction enqueues `bytes` of egress
(§4.1 egress coordination): the serialized bytes land in the write buffer;
crossing the configured limit flags egress-paused and notifies every
transaction (§3 invariant 2). -/
def ESession.sendBody (s : ESession) (id : Nat) (bytes : Nat) : ESession :=
  if id ∈ s.txns ∧ s.closed = false then
    let s1 := { s with buf := s.buf + bytes,
                       events := s.events ++ [EgEvent.enqueued id bytes] }
    if s1.limit < s1.buf ∧ s1.paused = false then s1.pauseAll else s1
  else s

/-- Modelled from the spec: a successful transport write acknowledging
`acked` bytes (§4.1 egress-pause semantics): resumption requires both
occupancy at or below the limit and a successful write callback; on resume
the session iterates all transactions in stream-id order; if the handlers
re-filled the pipe past the limit the session re-pauses all
transactions. -/
def ESession.writeSuccess (s : ESession) (acked : Nat) (refill : Nat → Nat) :
    ESession :=
  if s.closed then s
  else if s.paused = true ∧ s.buf - acked ≤ s.limit then
    let s1 := { s with buf := s.buf - acked + (s.txns.map refill).sum,
                       paused := false,
                       events := s.events ++ resumeEvents refill s.txns }
    if s1.limit < s1.buf then s1.pauseAll else s1
  else { s with buf := s.buf - acked }

/-- The fatal-error notifications a write failure delivers: `onError`
followed by detach, per in-flight transaction. -/
def failEvents (txns : List Nat) : List EgEvent :=
  txns.flatMap (fun id => [EgEvent.onError id, EgEvent.detach id])

/-- Modelled from the spec: a transport write failure (§4.1: "On
write-failure all in-flight transactions receive a fatal error and the
session transitions to Closed"; §7: "Write errors are fatal to the
session").  Every in-flight transaction receives `onError` then detaches,
and the session closes and destroys itself
(`SPDY3UpstreamSessionTest.TestUnderLimitOnWriteError`). -/
def ESession.writeFailure (s : ESession) : ESession :=
  { s with txns := [], closed := true, destroyed := true,
           events := s.events ++ failEvents s.txns }

/-- The egress-side operations an execution may interleave. -/
inductive EOp
  | newTxn
  | sendBody (id : Nat) (bytes : Nat)
  | writeSuccess (acked : Nat) (refill : Nat → Nat)
  | writeFail

/-- One step of the egress model under an operation. -/
def ESession.estep (s : ESession) : EOp → ESession
  | .newTxn => ((s.newTransaction).map Prod.snd).getD s
  | .sendBody id bytes => s.sendBody id bytes
  | .writeSuccess acked refill => s.writeSuccess acked refill
  | .writeFail => s.writeFailure

/-- Run a list of egress operations from a state. -/
def ESession.erun (s : ESession) (ops : List EOp) : ESession :=
  ops.foldl ESession.estep s

/-- The freshly created session: no transactions, empty write buffer, not
paused, first locally-minted stream id 1 (§3 invariant 4). -/
def ESession.init (limit : Nat) : ESession :=
  ⟨[], 0, limit, false, false, false, 1, []⟩

/-- The state invariant of the egress model: transactions are in strictly
increasing stream-id order below the next id to mint; ids not yet minted
have seen no notifications and enqueued nothing; every alive transaction
has seen exactly one more pause than resume when the session is paused and
equal numbers otherwise; a closed session has no transactions. -/
def EInv (s : ESession) : Prop :=
  List.Pairwise (· < ·) s.txns ∧
  (∀ id ∈ s.txns, id < s.nextStreamId) ∧
  (∀ id, s.nextStreamId ≤ id →
    pauseCount id s.events = 0 ∧ resumeCount id s.events = 0 ∧
    ∀ b, EgEvent.enqueued id b ∉ s.events) ∧
  (∀ id ∈ s.txns,
    pauseCount id s.events =
      resumeCount id s.events + (if s.paused then 1 else 0)) ∧
  (s.closed = true → s.txns = [])

theorem pauseCount_append (id : Nat) (l1 l2 : List EgEvent) :
    pauseCount id (l1 ++ l2) = pauseCount id l1 + pauseCount id l2 :=
  List.count_append _ _ _

theorem resumeCount_append (id : Nat) (l1 l2 : List EgEvent) :
    resumeCount id (l1 ++ l2) = resumeCount id l1 + resumeCount id l2 :=
  List.count_append _ _ _

theorem pauseCount_cons_paused (id x : Nat) (l : List EgEvent) :
    pauseCount id (EgEvent.onEgressPaused x :: l) =
      pauseCount id l + (if x = id then 1 else 0) := by
  by_cases h : x = id
  · simp [pauseCount, List.count_cons, h]
  · simp [pauseCount, List.count_cons, h, Ne.symm h]

theorem pauseCount_cons_resumed (id x : Nat) (l : List EgEvent) :
    pauseCount id (EgEvent.onEgressResumed x :: l) = pauseCount id l := by
  simp [pauseCount, List.count_cons]

theorem pauseCount_cons_enqueued (id x b : Nat) (l : List EgEvent) :
    pauseCount id (EgEvent.enqueued x b :: l) = pauseCount id l := by
  simp [pauseCount, List.count_cons]

theorem resumeCount_cons_resumed (id x : Nat) (l : List EgEvent) :
    resumeCount id (EgEvent.onEgressResumed x :: l) =
      resumeCount id l + (if x = id then 1 else 0) := by
  by_cases h : x = id
  · simp [resumeCount, List.count_cons, h]
  · simp [resumeCount, List.count_cons, h, Ne.symm h]

theorem resumeCount_cons_paused (id x : Nat) (l : List EgEvent) :
    resumeCount id (EgEvent.onEgressPaused x :: l) = resumeCount id l := by
  simp [resumeCount, List.count_cons]

theorem resumeCount_cons_enqueued (id x b : Nat) (l : List EgEvent) :
    resumeCount id (EgEvent.enqueued x b :: l) = resumeCount id l := by
  simp [resumeCount, List.count_cons]

theorem pauseCount_map_pause (id : Nat) (txns : List Nat) :
    pauseCount id (txns.map EgEvent.onEgressPaused) = txns.count id := by
  induction txns with
  | nil => rfl
  | cons x xs ih =>
      rw [List.map_cons, pauseCount_cons_paused, ih, List.count_cons]
      by_cases h : x = id
      · simp [h]
      · simp [h, Ne.symm h]

theorem resumeCount_map_pause (id : Nat) (txns : List Nat) :
    resumeCount id (txns.map EgEvent.onEgressPaused) = 0 := by
  induction txns with
  | nil => rfl
  | cons x xs ih => rw [List.map_cons, resumeCount_cons_paused, ih]

theorem resumeEvents_cons (refill : Nat → Nat) (x : Nat) (xs : List Nat) :
    resumeEvents refill (x :: xs) = EgEvent.onEgressResumed x ::
      ((if refill x = 0 then [] else [EgEvent.enqueued x (refill x)]) ++
        resumeEvents refill xs) := by
  simp [resumeEvents]

theorem pauseCount_resumeEvents (id : Nat) (refill : Nat → Nat)
    (txns : List Nat) : pauseCount id (resumeEvents refill txns) = 0 := by
  induction txns with
  | nil => rfl
  | cons x xs ih =>
      rw [resumeEvents_cons, pauseCount_cons_resumed, pauseCount_append, ih]
      by_cases hr : refill x = 0
      · rw [if_pos hr]
        rfl
      · rw [if_neg hr, pauseCount_cons_enqueued]
        rfl

theorem resumeCount_resumeEvents (id : Nat) (refill : Nat → Nat)
    (txns : List Nat) :
    resumeCount id (resumeEvents refill txns) = txns.count id := by
  induction txns with
  | nil => rfl
  | cons x xs ih =>
      rw [resumeEvents_cons, resumeCount_cons_resumed, resumeCount_append,
        ih, List.count_cons]
      have hbase : resumeCount id
          (if refill x = 0 then []
           else [EgEvent.enqueued x (refill x)]) = 0 := by
        by_cases hr : refill x = 0
        · rw [if_pos hr]
          rfl
        · rw [if_neg hr, resumeCount_cons_enqueued]
          rfl
      rw [hbase]
      by_cases h : x = id
      · simp [h]
      · simp [h, Ne.symm h]

theorem enqueued_mem_resumeEvents {id b : Nat} {refill : Nat → Nat}
    {txns : List Nat} (h : EgEvent.enqueued id b ∈ resumeEvents refill txns) :
    id ∈ txns := by
  induction txns with
  | nil => cases h
  | cons x xs ih =>
      simp only [resumeEvents, List.flatMap_cons, List.mem_append,
        List.mem_cons] at h
      rcases h with (h1 | h1) | h2
      · cases h1
      · by_cases hr : refill x = 0
        · rw [hr] at h1
          simp at h1
        · rw [if_neg hr] at h1
          simp only [List.mem_singleton, EgEvent.enqueued.injEq] at h1
          rw [h1.1]
          exact List.mem_cons_self x xs
      · exact List.mem_cons_of_mem x (ih h2)

theorem resumedIds_cons_resumed (x : Nat) (l : List EgEvent) :
    resumedIds (EgEvent.onEgressResumed x :: l) = x :: resumedIds l := by
  simp [resumedIds]

theorem resumedIds_cons_enqueued (x b : Nat) (l : List EgEvent) :
    resumedIds (EgEvent.enqueued x b :: l) = resumedIds l := by
  simp [resumedIds]

theorem resumedIds_append (l1 l2 : List EgEvent) :
    resumedIds (l1 ++ l2) = resumedIds l1 ++ resumedIds l2 := by
  simp [resumedIds, List.filterMap_append]

theorem resumedIds_resumeEvents (refill : Nat → Nat) (txns : List Nat) :
    resumedIds (resumeEvents refill txns) = txns := by
  induction txns with
  | nil => rfl
  | cons x xs ih =>
      rw [resumeEvents_cons, resumedIds_cons_resumed]
      by_cases hr : refill x = 0
      · rw [if_pos hr, List.nil_append, ih]
      · rw [if_neg hr, resumedIds_append, resumedIds_cons_enqueued, ih]
        rfl

theorem pauseCount_cons_onError (id x : Nat) (l : List EgEvent) :
    pauseCount id (EgEvent.onError x :: l) = pauseCount id l := by
  simp [pauseCount, List.count_cons]

theorem pauseCount_cons_detach (id x : Nat) (l : List EgEvent) :
    pauseCount id (EgEvent.detach x :: l) = pauseCount id l := by
  simp [pauseCount, List.count_cons]

theorem resumeCount_cons_onError (id x : Nat) (l : List EgEvent) :
    resumeCount id (EgEvent.onError x :: l) = resumeCount id l := by
  simp [resumeCount, List.count_cons]

theorem resumeCount_cons_detach (id x : Nat) (l : List EgEvent) :
    resumeCount id (EgEvent.detach x :: l) = resumeCount id l := by
  simp [resumeCount, List.count_cons]

theorem failEvents_cons (x : Nat) (xs : List Nat) :
    failEvents (x :: xs) =
      EgEvent.onError x :: EgEvent.detach x :: failEvents xs := by
  simp [failEvents]

theorem pauseCount_failEvents (id : Nat) (txns : List Nat) :
    pauseCount id (failEvents txns) = 0 := by
  induction txns with
  | nil => rfl
  | cons x xs ih =>
      rw [failEvents_cons, pauseCount_cons_onError, pauseCount_cons_detach,
        ih]

theorem resumeCount_failEvents (id : Nat) (txns : List Nat) :
    resumeCount id (failEvents txns) = 0 := by
  induction txns with
  | nil => rfl
  | cons x xs ih =>
      rw [failEvents_cons, resumeCount_cons_onError,
        resumeCount_cons_detach, ih]

theorem mem_failEvents (e : EgEvent) (txns : List Nat)
    (h : e ∈ failEvents txns) :
    (∃ x ∈ txns, e = EgEvent.onError x) ∨
    (∃ x ∈ txns, e = EgEvent.detach x) := by
  induction txns with
  | nil => cases h
  | cons x xs ih =>
      rw [failEvents_cons] at h
      rcases List.mem_cons.mp h with h1 | h1
      · exact Or.inl ⟨x, List.mem_cons_self x xs, h1⟩
      rcases List.mem_cons.mp h1 with h2 | h2
      · exact Or.inr ⟨x, List.mem_cons_self x xs, h2⟩
      rcases ih h2 with ⟨y, hy, he⟩ | ⟨y, hy, he⟩
      · exact Or.inl ⟨y, List.mem_cons_of_mem x hy, he⟩
      · exact Or.inr ⟨y, List.mem_cons_of_mem x hy, he⟩

theorem infix_failEvents_of_mem {id : Nat} {txns : List Nat}
    (h : id ∈ txns) :
    [EgEvent.onError id, EgEvent.detach id] <:+: failEvents txns := by
  induction txns with
  | nil => cases h
  | cons x xs ih =>
      rcases List.mem_cons.mp h with h1 | h2
      · refine ⟨[], failEvents xs, ?_⟩
        rw [h1, failEvents_cons]
        rfl
      · rcases ih h2 with ⟨u, v, huv⟩
        refine ⟨EgEvent.onError x :: EgEvent.detach x :: u, v, ?_⟩
        rw [failEvents_cons, ← huv]
        rfl

theorem nodup_of_pairwise_lt {l : List Nat}
    (h : List.Pairwise (· < ·) l) : l.Nodup :=
  h.imp Nat.ne_of_lt

theorem count_eq_zero_of_lt_all {l : List Nat} {n : Nat}
    (h : ∀ x ∈ l, x < n) : l.count n = 0 :=
  List.count_eq_zero_of_not_mem (fun hmem => Nat.lt_irrefl n (h n hmem))

/-- The invariant holds in the freshly created session. -/
theorem EInv_init (limit : Nat) : EInv (ESession.init limit) := by
  refine ⟨List.Pairwise.nil, ?_, ?_, ?_, ?_⟩
  · intro id hid
    cases hid
  · intro id _
    exact ⟨rfl, rfl, fun b hb => by cases hb⟩
  · intro id hid
    cases hid
  · intro _
    rfl

/-- `newTransaction` preserves the invariant. -/
theorem EInv_newTransaction (s : ESession) (h : EInv s) :
    EInv ((((s.newTransaction)).map Prod.snd).getD s) := by
  obtain ⟨hpair, hlt, hfresh, hbal, hclosed⟩ := h
  by_cases hc : s.closed
  · have : s.newTransaction = none := by
      rw [ESession.newTransaction, if_pos hc]
    rw [this]
    exact ⟨hpair, hlt, hfresh, hbal, hclosed⟩
  · have hstep : (((s.newTransaction)).map Prod.snd).getD s =
        { s with txns := s.txns ++ [s.nextStreamId],
                 nextStreamId := s.nextStreamId + 2,
                 events := s.events ++
                   (if s.paused then
                     [EgEvent.onEgressPaused s.nextStreamId] else []) } := by
      rw [ESession.newTransaction, if_neg hc]
      rfl
    rw [hstep]
    unfold EInv
    dsimp only
    set n := s.nextStreamId with hn
    set P : List EgEvent :=
      (if s.paused then [EgEvent.onEgressPaused n] else []) with hP
    have hPpause : ∀ id, id ≠ n → pauseCount id P = 0 := by
      intro id hne
      rw [hP]
      by_cases hp : s.paused
      · rw [if_pos hp, pauseCount_cons_paused, if_neg (Ne.symm hne)]
        rfl
      · rw [if_neg hp]
        rfl
    have hPres : ∀ id, resumeCount id P = 0 := by
      intro id
      rw [hP]
      by_cases hp : s.paused
      · rw [if_pos hp, resumeCount_cons_paused]
        rfl
      · rw [if_neg hp]
        rfl
    have hPenq : ∀ id b, EgEvent.enqueued id b ∉ P := by
      intro id b hmem
      rw [hP] at hmem
      by_cases hp : s.paused
      · rw [if_pos hp] at hmem
        simp at hmem
      · rw [if_neg hp] at hmem
        cases hmem
    refine ⟨?_, ?_, ?_, ?_, ?_⟩
    · rw [List.pairwise_append]
      refine ⟨hpair, List.pairwise_singleton _ _, ?_⟩
      intro a ha b hb
      rw [List.mem_singleton.mp hb]
      exact hlt a ha
    · intro id hid
      rcases List.mem_append.mp hid with h1 | h1
      · exact Nat.lt_trans (hlt id h1) (by omega)
      · rw [List.mem_singleton.mp h1]
        omega
    · intro id hid
      have hgt : n < id := by omega
      have hne : id ≠ n := by omega
      have hold := hfresh id (by omega)
      refine ⟨?_, ?_, ?_⟩
      · rw [pauseCount_append, hold.1, hPpause id hne]
      · rw [resumeCount_append, hold.2.1, hPres id]
      · intro b hb
        rcases List.mem_append.mp hb with h1 | h1
        · exact hold.2.2 b h1
        · exact hPenq id b h1
    · intro id hid
      rcases List.mem_append.mp hid with h1 | h1
      · have hne : id ≠ n := by
          have := hlt id h1
          omega
        rw [pauseCount_append, resumeCount_append, hPpause id hne,
          hPres id]
        have := hbal id h1
        omega
      · rw [List.mem_singleton.mp h1]
        have hold := hfresh n (Nat.le_refl n)
        rw [pauseCount_append, resumeCount_append, hold.1, hold.2.1,
          hPres n]
        rw [hP]
        by_cases hp : s.paused
        · rw [if_pos hp, pauseCount_cons_paused]
          simp [hp, pauseCount]
        · rw [if_neg hp]
          simp [hp, pauseCount]
    · intro hc2
      exact absurd hc2 hc

/-- Pausing all transactions from an unpaused state preserves the
invariant. -/
theorem EInv_pauseAll (s : ESession) (h : EInv s) (hp : s.paused = false) :
    EInv s.pauseAll := by
  obtain ⟨hpair, hlt, hfresh, hbal, hclosed⟩ := h
  unfold ESession.pauseAll EInv
  dsimp only
  refine ⟨hpair, hlt, ?_, ?_, hclosed⟩
  · intro id hid
    have hnot : id ∉ s.txns := fun hmem => by
      have := hlt id hmem
      omega
    have hold := hfresh id hid
    refine ⟨?_, ?_, ?_⟩
    · rw [pauseCount_append, hold.1, pauseCount_map_pause,
        List.count_eq_zero_of_not_mem hnot]
    · rw [resumeCount_append, hold.2.1, resumeCount_map_pause]
    · intro b hb
      rcases List.mem_append.mp hb with h1 | h1
      · exact hold.2.2 b h1
      · rcases List.mem_map.mp h1 with ⟨x, _, hx⟩
        cases hx
  · intro id hid
    have hone : s.txns.count id = 1 :=
      List.count_eq_one_of_mem (nodup_of_pairwise_lt hpair) hid
    rw [pauseCount_append, resumeCount_append, pauseCount_map_pause,
      resumeCount_map_pause, hone]
    have hb2 := hbal id hid
    rw [hp] at hb2
    simp only [Bool.false_eq_true, if_false] at hb2
    simp [hb2]

/-- Enqueuing egress for an alive transaction preserves the invariant. -/
theorem EInv_enqueue (s : ESession) (h : EInv s) (id bytes : Nat)
    (hid : id ∈ s.txns) :
    EInv { s with buf := s.buf + bytes,
                  events := s.events ++ [EgEvent.enqueued id bytes] } := by
  obtain ⟨hpair, hlt, hfresh, hbal, hclosed⟩ := h
  unfold EInv
  dsimp only
  refine ⟨hpair, hlt, ?_, ?_, hclosed⟩
  · intro f hf
    have hold := hfresh f hf
    have hne : id ≠ f := fun hc => by
      have := hlt id hid
      omega
    refine ⟨?_, ?_, ?_⟩
    · rw [pauseCount_append, hold.1, pauseCount_cons_enqueued]
      rfl
    · rw [resumeCount_append, hold.2.1, resumeCount_cons_enqueued]
      rfl
    · intro b hb
      rcases List.mem_append.mp hb with h1 | h1
      · exact hold.2.2 b h1
      · rcases List.mem_singleton.mp h1 with h2
        cases h2
        exact hne rfl
  · intro f hf
    rw [pauseCount_append, resumeCount_append, pauseCount_cons_enqueued,
      resumeCount_cons_enqueued]
    have := hbal f hf
    simp only [pauseCount, resumeCount, List.count_nil] at *
    omega

/-- `sendBody` preserves the invariant. -/
theorem EInv_sendBody (s : ESession) (h : EInv s) (id bytes : Nat) :
    EInv (s.sendBody id bytes) := by
  rw [ESession.sendBody]
  by_cases hg : id ∈ s.txns ∧ s.closed = false
  · rw [if_pos hg]
    have h1 := EInv_enqueue s h id bytes hg.1
    dsimp only
    split
    · next hcond => exact EInv_pauseAll _ h1 hcond.2
    · exact h1
  · rw [if_neg hg]
    exact h

/-- The resume iteration of a successful write preserves the invariant. -/
theorem EInv_resumePhase (s : ESession) (h : EInv s) (newBuf : Nat)
    (refill : Nat → Nat) (hp : s.paused = true) :
    EInv { s with buf := newBuf,
                  paused := false,
                  events := s.events ++ resumeEvents refill s.txns } := by
  obtain ⟨hpair, hlt, hfresh, hbal, hclosed⟩ := h
  unfold EInv
  dsimp only
  refine ⟨hpair, hlt, ?_, ?_, hclosed⟩
  · intro f hf
    have hnot : f ∉ s.txns := fun hmem => by
      have := hlt f hmem
      omega
    have hold := hfresh f hf
    refine ⟨?_, ?_, ?_⟩
    · rw [pauseCount_append, hold.1, pauseCount_resumeEvents]
    · rw [resumeCount_append, hold.2.1, resumeCount_resumeEvents,
        List.count_eq_zero_of_not_mem hnot]
    · intro b hb
      rcases List.mem_append.mp hb with h1 | h1
      · exact hold.2.2 b h1
      · exact hnot (enqueued_mem_resumeEvents h1)
  · intro f hf
    have hone : s.txns.count f = 1 :=
      List.count_eq_one_of_mem (nodup_of_pairwise_lt hpair) hf
    rw [pauseCount_append, resumeCount_append, pauseCount_resumeEvents,
      resumeCount_resumeEvents, hone]
    have hb2 := hbal f hf
    rw [hp] at hb2
    simp only [if_true] at hb2
    simp
    omega

/-- `writeSuccess` preserves the invariant. -/
theorem EInv_writeSuccess (s : ESession) (h : EInv s) (acked : Nat)
    (refill : Nat → Nat) : EInv (s.writeSuccess acked refill) := by
  rw [ESession.writeSuccess]
  by_cases hc : s.closed
  · rw [if_pos hc]
    exact h
  · rw [if_neg hc]
    by_cases hcond : s.paused = true ∧ s.buf - acked ≤ s.limit
    · rw [if_pos hcond]
      have h1 := EInv_resumePhase s h
        (s.buf - acked + (s.txns.map refill).sum) refill hcond.1
      dsimp only
      split
      · exact EInv_pauseAll _ h1 rfl
      · exact h1
    · rw [if_neg hcond]
      obtain ⟨hpair, hlt, hfresh, hbal, hclosed⟩ := h
      exact ⟨hpair, hlt, hfresh, hbal, hclosed⟩

/-- `writeFailure` preserves the invariant. -/
theorem EInv_writeFailure (s : ESession) (h : EInv s) :
    EInv s.writeFailure := by
  obtain ⟨hpair, hlt, hfresh, hbal, hclosed⟩ := h
  unfold ESession.writeFailure EInv
  dsimp only
  refine ⟨List.Pairwise.nil, ?_, ?_, ?_, ?_⟩
  · intro id hid
    cases hid
  · intro id hid
    have hold := hfresh id hid
    refine ⟨?_, ?_, ?_⟩
    · rw [pauseCount_append, hold.1, pauseCount_failEvents]
    · rw [resumeCount_append, hold.2.1, resumeCount_failEvents]
    · intro b hb
      rcases List.mem_append.mp hb with h1 | h1
      · exact hold.2.2 b h1
      · rcases mem_failEvents _ _ h1 with ⟨x, _, he⟩ | ⟨x, _, he⟩ <;>
          cases he
  · intro id hid
    cases hid
  · intro _
    rfl

/-- Every step of the egress model preserves the invariant. -/
theorem EInv_estep (s : ESession) (h : EInv s) (op : EOp) :
    EInv (s.estep op) := by
  cases op with
  | newTxn => exact EInv_newTransaction s h
  | sendBody id bytes => exact EInv_sendBody s h id bytes
  | writeSuccess acked refill => exact EInv_writeSuccess s h acked refill
  | writeFail => exact EInv_writeFailure s h

/-- The invariant holds in every reachable state. -/
theorem EInv_erun (s : ESession) (h : EInv s) (ops : List EOp) :
    EInv (s.erun ops) := by
  induction ops generalizing s with
  | nil => exact h
  | cons op rest ih => exact ih _ (EInv_estep s h op)

theorem sum_map_zero (l : List Nat) : (l.map (fun _ => 0)).sum = 0 := by
  induction l with
  | nil => rfl
  | cons x xs ih => simp [ih]

/-- C3: a transport write failure is fatal: every in-flight transaction
receives a fatal error — `onError` immediately followed by detach — the
session transitions to Closed and destroys itself with no transactions
left, and the failure handling delivers no egress-resumed notification to
any transaction. -/
theorem write_failure_is_fatal (s : ESession) :
    (s.writeFailure).closed = true ∧
    (s.writeFailure).destroyed = true ∧
    (s.writeFailure).txns = [] ∧
    (∀ id ∈ s.txns,
      [EgEvent.onError id, EgEvent.detach id] <:+: (s.writeFailure).events) ∧
    (∀ id, EgEvent.onEgressResumed id ∈ (s.writeFailure).events →
      EgEvent.onEgressResumed id ∈ s.events) := by
  refine ⟨rfl, rfl, rfl, ?_, ?_⟩
  · intro id hid
    rcases infix_failEvents_of_mem hid with ⟨u, v, huv⟩
    refine ⟨s.events ++ u, v, ?_⟩
    rw [ESession.writeFailure]
    dsimp only
    rw [← huv]
    simp
  · intro id hmem
    rw [ESession.writeFailure] at hmem
    dsimp only at hmem
    rcases List.mem_append.mp hmem with h1 | h1
    · exact h1
    · rcases mem_failEvents _ _ h1 with ⟨x, _, he⟩ | ⟨x, _, he⟩ <;> cases he

/-- C3 witness: the scenario of
`SPDY3UpstreamSessionTest.TestUnderLimitOnWriteError` (one paused
transaction with id 1 and a filled buffer, then the write fails): the
session closes and destroys itself, transaction 1 receives `onError` then
detach, and no egress-resumed notification is delivered. -/
theorem write_failure_is_fatal_witness :
    ((⟨[1], 70000, 65536, true, false, false, 3,
        [EgEvent.onEgressPaused 1]⟩ : ESession).writeFailure).closed = true ∧
    ((⟨[1], 70000, 65536, true, false, false, 3,
        [EgEvent.onEgressPaused 1]⟩ : ESession).writeFailure).destroyed
      = true ∧
    ((⟨[1], 70000, 65536, true, false, false, 3,
        [EgEvent.onEgressPaused 1]⟩ : ESession).writeFailure).txns = [] ∧
    [EgEvent.onError 1, EgEvent.detach 1] <:+:
      ((⟨[1], 70000, 65536, true, false, false, 3,
        [EgEvent.onEgressPaused 1]⟩ : ESession).writeFailure).events ∧
    EgEvent.onEgressResumed 1 ∉
      ((⟨[1], 70000, 65536, true, false, false, 3,
        [EgEvent.onEgressPaused 1]⟩ : ESession).writeFailure).events := by
  have h := write_failure_is_fatal
    ⟨[1], 70000, 65536, true, false, false, 3, [EgEvent.onEgressPaused 1]⟩
  exact ⟨h.1, h.2.1, h.2.2.1, h.2.2.2.1 1 (by decide),
    fun hm => absurd (h.2.2.2.2 1 hm) (by decide)⟩

/-- C10: a transaction created by `newTransaction` while the session is
egress-paused starts in the egress-paused state: the only notification
delivered at creation is `onEgressPaused` for the new transaction, which
has then received exactly one pause, no resume, and has never enqueued any
egress of its own. -/
theorem new_transaction_starts_paused (limit : Nat) (ops : List EOp)
    (hpause : ((ESession.init limit).erun ops).paused = true)
    (hopen : ((ESession.init limit).erun ops).closed = false) :
    ∃ n s2, ((ESession.init limit).erun ops).newTransaction = some (n, s2) ∧
      n = ((ESession.init limit).erun ops).nextStreamId ∧
      s2.events = ((ESession.init limit).erun ops).events ++
        [EgEvent.onEgressPaused n] ∧
      pauseCount n s2.events = 1 ∧
      resumeCount n s2.events = 0 ∧
      (∀ b, EgEvent.enqueued n b ∉ s2.events) := by
  set s := (ESession.init limit).erun ops with hs
  have hinv := EInv_erun (ESession.init limit) (EInv_init limit) ops
  rw [← hs] at hinv
  obtain ⟨hpair, hlt, hfresh, hbal, hclosed⟩ := hinv
  have hold := hfresh s.nextStreamId (Nat.le_refl _)
  refine ⟨s.nextStreamId,
    { s with txns := s.txns ++ [s.nextStreamId],
             nextStreamId := s.nextStreamId + 2,
             events := s.events ++
               [EgEvent.onEgressPaused s.nextStreamId] },
    ?_, rfl, rfl, ?_, ?_, ?_⟩
  · rw [ESession.newTransaction, if_neg (by simp [hopen]), hpause]
    rfl
  · dsimp only
    rw [pauseCount_append, hold.1, pauseCount_cons_paused, if_pos rfl]
    rfl
  · dsimp only
    rw [resumeCount_append, hold.2.1, resumeCount_cons_paused]
    rfl
  · intro b hb
    dsimp only at hb
    rcases List.mem_append.mp hb with h1 | h1
    · exact hold.2.2 b h1
    · rcases List.mem_singleton.mp h1 with h2
      cases h2

/-- C10 witness: with limit 10, create transaction 1 and let it enqueue 11
bytes (pausing the session); the next `newTransaction` mints id 3, which
starts egress-paused having enqueued nothing. -/
theorem new_transaction_starts_paused_witness :
    ∃ n s2,
      (((ESession.init 10).erun
        [EOp.newTxn, EOp.sendBody 1 11])).newTransaction = some (n, s2) ∧
      n = (((ESession.init 10).erun
        [EOp.newTxn, EOp.sendBody 1 11])).nextStreamId ∧
      s2.events = (((ESession.init 10).erun
        [EOp.newTxn, EOp.sendBody 1 11])).events ++
          [EgEvent.onEgressPaused n] ∧
      pauseCount n s2.events = 1 ∧
      resumeCount n s2.events = 0 ∧
      (∀ b, EgEvent.enqueued n b ∉ s2.events) :=
  new_transaction_starts_paused 10 [EOp.newTxn, EOp.sendBody 1 11]
    (by decide) (by decide)

/-- C4: in every reachable session state, (a) whenever the write buffer
exceeds the configured limit every alive transaction has received
`onEgressPaused` at least as many times as `onEgressResumed`; (b) the resume
iteration notifies transactions in (strictly increasing) stream-id order;
(c) when the handlers re-fill the write buffer past the limit during their
resume callbacks, the session re-pauses, delivering one more pause and one
more resume to every alive transaction; (d) after a full acknowledgement
with no re-fill, every transaction has observed an equal number of pause
and resume notifications. -/
theorem overlimit_pause_resume_discipline (limit : Nat) (ops : List EOp)
    (s : ESession) (acked : Nat) (refill : Nat → Nat)
    (hreach : s = (ESession.init limit).erun ops) :
    (s.limit < s.buf → ∀ id ∈ s.txns,
      resumeCount id s.events ≤ pauseCount id s.events) ∧
    (resumedIds (resumeEvents refill s.txns) = s.txns ∧
      List.Pairwise (· < ·) s.txns) ∧
    (s.closed = false → s.paused = true → s.buf - acked ≤ s.limit →
      s.limit < s.buf - acked + (s.txns.map refill).sum →
      (s.writeSuccess acked refill).paused = true ∧
      ∀ id ∈ s.txns,
        pauseCount id (s.writeSuccess acked refill).events =
          pauseCount id s.events + 1 ∧
        resumeCount id (s.writeSuccess acked refill).events =
          resumeCount id s.events + 1) ∧
    (∀ id ∈ (s.writeSuccess s.buf (fun _ => 0)).txns,
      pauseCount id (s.writeSuccess s.buf (fun _ => 0)).events =
        resumeCount id (s.writeSuccess s.buf (fun _ => 0)).events) := by
  have hinv : EInv s := by
    rw [hreach]
    exact EInv_erun (ESession.init limit) (EInv_init limit) ops
  obtain ⟨hpair, hlt, hfresh, hbal, hclosed⟩ := hinv
  refine ⟨?_, ⟨resumedIds_resumeEvents refill s.txns, hpair⟩, ?_, ?_⟩
  · intro _ id hid
    have hb2 := hbal id hid
    by_cases hp : s.paused = true <;> simp [hp] at hb2 <;> omega
  · intro hcl hp hle hgt
    have hws : s.writeSuccess acked refill =
        ({ s with buf := s.buf - acked + (s.txns.map refill).sum,
                  paused := false,
                  events := s.events ++ resumeEvents refill s.txns } :
          ESession).pauseAll := by
      rw [ESession.writeSuccess, if_neg (by simp [hcl]), if_pos ⟨hp, hle⟩]
      dsimp only
      rw [if_pos hgt]
    constructor
    · rw [hws]
      rfl
    · intro id hid
      have hone : s.txns.count id = 1 :=
        List.count_eq_one_of_mem (nodup_of_pairwise_lt hpair) hid
      rw [hws]
      unfold ESession.pauseAll
      dsimp only
      constructor
      · rw [pauseCount_append, pauseCount_append, pauseCount_resumeEvents,
          pauseCount_map_pause, hone]
      · rw [resumeCount_append, resumeCount_append,
          resumeCount_resumeEvents, resumeCount_map_pause, hone]
  · by_cases hcl : s.closed = true
    · have hws : s.writeSuccess s.buf (fun _ => 0) = s := by
        rw [ESession.writeSuccess, if_pos hcl]
      rw [hws]
      intro id hid
      rw [hclosed hcl] at hid
      cases hid
    · have hcl2 : s.closed = false := by
        cases hq : s.closed
        · rfl
        · exact absurd hq hcl
      by_cases hp : s.paused = true
      · have hws : s.writeSuccess s.buf (fun _ => 0) =
            { s with buf := s.buf - s.buf + (s.txns.map (fun _ => 0)).sum,
                     paused := false,
                     events := s.events ++
                       resumeEvents (fun _ => 0) s.txns } := by
          rw [ESession.writeSuccess, if_neg (by simp [hcl2]),
            if_pos ⟨hp, by omega⟩]
          dsimp only
          rw [if_neg (by rw [sum_map_zero]; omega)]
        rw [hws]
        intro id hid
        dsimp only at hid ⊢
        have hone : s.txns.count id = 1 :=
          List.count_eq_one_of_mem (nodup_of_pairwise_lt hpair) hid
        rw [pauseCount_append, resumeCount_append, pauseCount_resumeEvents,
          resumeCount_resumeEvents, hone]
        have hb2 := hbal id hid
        simp only [hp, if_true] at hb2
        omega
      · have hws : s.writeSuccess s.buf (fun _ => 0) =
            { s with buf := s.buf - s.buf } := by
          rw [ESession.writeSuccess, if_neg (by simp [hcl2]),
            if_neg (by simp [hp])]
        rw [hws]
        intro id hid
        dsimp only at hid ⊢
        have hb2 := hbal id hid
        simp [hp] at hb2
        exact hb2

/-- The session of `SPDY3UpstreamSessionTest.TestOverlimitResume`, reduced:
two transactions (ids 1 and 3), transaction 1 enqueues past the limit, so
the session pauses both. -/
def overlimitSession : ESession :=
  (ESession.init 10).erun [EOp.newTxn, EOp.newTxn, EOp.sendBody 1 11]

/-- C4 witness: in the over-limit session, transaction 1 has at least as
many pauses as resumes; the resume order is the stream-id order [1, 3]; a
resume round in which every handler re-fills 11 bytes re-pauses the session
and hands transaction 1 exactly one more resume and one more pause; a full
acknowledgement with no re-fill leaves transaction 1 with equal pause and
resume counts. -/
theorem overlimit_pause_resume_discipline_witness :
    resumeCount 1 overlimitSession.events ≤
      pauseCount 1 overlimitSession.events ∧
    resumedIds (resumeEvents (fun _ => 11) overlimitSession.txns) =
      overlimitSession.txns ∧
    (overlimitSession.writeSuccess 11 (fun _ => 11)).paused = true ∧
    pauseCount 1 (overlimitSession.writeSuccess 11 (fun _ => 11)).events =
      pauseCount 1 overlimitSession.events + 1 ∧
    resumeCount 1 (overlimitSession.writeSuccess 11 (fun _ => 11)).events =
      resumeCount 1 overlimitSession.events + 1 ∧
    pauseCount 1
        (overlimitSession.writeSuccess overlimitSession.buf
          (fun _ => 0)).events =
      resumeCount 1
        (overlimitSession.writeSuccess overlimitSession.buf
          (fun _ => 0)).events := by
  have h := overlimit_pause_resume_discipline 10
    [EOp.newTxn, EOp.newTxn, EOp.sendBody 1 11] overlimitSession 11
    (fun _ => 11) rfl
  have hc := h.2.2.1 (by decide) (by decide) (by decide) (by decide)
  exact ⟨h.1 (by decide) 1 (by decide), h.2.1.1, hc.1,
    (hc.2 1 (by decide)).1, (hc.2 1 (by decide)).2,
    h.2.2.2 1 (by decide)⟩

/-- Linear whitespace inside an HTTP token list: space or horizontal tab
(§6 upgrade wire format: "possibly with whitespace"). -/
def isLws (c : Char) : Bool :=
  c = ' ' ∨ c = '\t'

/-- Strip leading and trailing linear whitespace from a token. -/
def trimToken (cs : List Char) : List Char :=
  ((cs.dropWhile isLws).reverse.dropWhile isLws).reverse

/-- Case-insensitive normal form of an upgrade token: trimmed and
lowercased. -/
def normalizeToken (s : String) : String :=
  String.mk ((trimToken s.data).map Char.toLower)

/-- Modelled from the spec: parsing the request `Upgrade:` header (§6:
"HTTP/1.1 request carries `Upgrade: <token>[, <token>]*` possibly with
whitespace and junk tokens; the session MUST strip whitespace, be
case-insensitive, and pick the first token whose protocol it supports"). -/
def pickSupportedToken (supported : List String) (header : String) :
    Option String :=
  ((header.data.splitOn ',').map
    (fun t => String.mk ((trimToken t).map Char.toLower))).find?
      (fun t => supported.contains t)

/-- Observable events of the upgrade path. -/
inductive UEvent
  | onError
  | detach
  | codecChanged
  deriving DecidableEq, Repr

/-- Modelled from the spec: the upgrade-relevant session state (§4.2
UpgradeBridge).  `configuredMax` is the configured
max-concurrent-outgoing-streams (the test fixture sets 10);
`pendingUpgrade` holds the offered protocol while the bridge is armed. -/
structure USession where
  maxConcurrentOutgoing : Nat
  configuredMax : Nat
  pendingUpgrade : Option String
  closed : Bool
  destroyed : Bool
  uevents : List UEvent
  deriving DecidableEq, Repr

/-- Modelled from the spec: the first transaction sends an `Upgrade:`
request header (§4.2: "the session inspects the header at egress time to
cap outgoing streams at 1 during the pre-upgrade period").  If no offered
token is supported, nothing is armed. -/
def USession.sendUpgradeRequest (s : USession) (supported : List String)
    (header : String) : USession :=
  match pickSupportedToken supported header with
  | some p => { s with pendingUpgrade := some p, maxConcurrentOutgoing := 1 }
  | none => s

/-- The failure path of a 101 response (§4.2: "absent or unknown protocol
surfaces an ingress error and the session becomes Closed"): the transaction
receives the error and detaches, the session closes and destroys itself. -/
def USession.failUpgrade (s : USession) : USession :=
  { s with closed := true, destroyed := true, pendingUpgrade := none,
           uevents := s.uevents ++ [UEvent.onError, UEvent.detach] }

/-- Modelled from the spec: receipt of `101 Switching Protocols` (§4.2,
§6): the `Upgrade:` response header MUST be present and MUST match the
offered protocol; on success the session swaps codecs (the info-callback
receives `onSessionCodecChange`) and max-concurrent-outgoing-streams is
restored to the configured multiplexed default. -/
def USession.on101 (s : USession) (respUpgrade : Option String) : USession :=
  match s.pendingUpgrade, respUpgrade with
  | some offered, some r =>
      if normalizeToken r = offered then
        { s with maxConcurrentOutgoing := s.configuredMax,
                 pendingUpgrade := none,
                 uevents := s.uevents ++ [UEvent.codecChanged] }
      else s.failUpgrade
  | _, _ => s.failUpgrade

/-- C5: when the first transaction's `Upgrade:` request header names a
supported protocol — even mixed with unknown tokens, whitespace and junk,
the first supported token is picked — the max-concurrent-outgoing-streams
limit is 1 during the pre-upgrade period and is restored to the configured
multiplexed default of 10 after a successful `101 Switching Protocols`
upgrade. -/
theorem upgrade_caps_then_restores_streams (s : USession)
    (supported : List String) (header p resp : String)
    (hpick : pickSupportedToken supported header = some p)
    (hmax : s.configuredMax = 10)
    (hresp : normalizeToken resp = p) :
    (s.sendUpgradeRequest supported header).maxConcurrentOutgoing = 1 ∧
    ((s.sendUpgradeRequest supported header).on101
      (some resp)).maxConcurrentOutgoing = 10 ∧
    UEvent.codecChanged ∈
      ((s.sendUpgradeRequest supported header).on101
        (some resp)).uevents ∧
    pickSupportedToken ["h2c"] "h2c" = some "h2c" ∧
    pickSupportedToken ["h2c"] "blarf, h2c" = some "h2c" ∧
    pickSupportedToken ["h2c"] "blarf, \th2c\t, xyz" = some "h2c" ∧
    pickSupportedToken ["h2c"] ",,,,   ,,\t~^%$(*&@(@$^^*(,h2c"
      = some "h2c" := by
  have hsend : s.sendUpgradeRequest supported header =
      { s with pendingUpgrade := some p, maxConcurrentOutgoing := 1 } := by
    rw [USession.sendUpgradeRequest, hpick]
  have hon : ({ s with pendingUpgrade := some p,
                       maxConcurrentOutgoing := 1 } : USession).on101
        (some resp) =
      { s with maxConcurrentOutgoing := s.configuredMax,
               pendingUpgrade := none,
               uevents := s.uevents ++ [UEvent.codecChanged] } := by
    unfold USession.on101
    dsimp only
    rw [if_pos hresp]
  refine ⟨?_, ?_, ?_, by decide, by decide, by decide, by decide⟩
  · rw [hsend]
  · rw [hsend, hon]
    exact hmax
  · rw [hsend, hon]
    simp

/-- C5 witness: the scenarios of `HTTPUpstreamSessionTest.HttpUpgradeNativeH2`
through `HttpUpgradeNativeJunk`: with the junk-laden header the session
picks `h2c`, caps streams at 1, and restores the cap to 10 on the matching
101 response. -/
theorem upgrade_caps_then_restores_streams_witness :
    ((⟨10, 10, none, false, false, []⟩ :
      USession).sendUpgradeRequest ["h2c"]
        ",,,,   ,,\t~^%$(*&@(@$^^*(,h2c").maxConcurrentOutgoing = 1 ∧
    (((⟨10, 10, none, false, false, []⟩ :
      USession).sendUpgradeRequest ["h2c"]
        ",,,,   ,,\t~^%$(*&@(@$^^*(,h2c").on101
          (some "h2c")).maxConcurrentOutgoing = 10 ∧
    UEvent.codecChanged ∈
      (((⟨10, 10, none, false, false, []⟩ :
        USession).sendUpgradeRequest ["h2c"]
          ",,,,   ,,\t~^%$(*&@(@$^^*(,h2c").on101
            (some "h2c")).uevents ∧
    pickSupportedToken ["h2c"] "h2c" = some "h2c" ∧
    pickSupportedToken ["h2c"] "blarf, h2c" = some "h2c" ∧
    pickSupportedToken ["h2c"] "blarf, \th2c\t, xyz" = some "h2c" ∧
    pickSupportedToken ["h2c"] ",,,,   ,,\t~^%$(*&@(@$^^*(,h2c"
      = some "h2c" :=
  upgrade_caps_then_restores_streams ⟨10, 10, none, false, false, []⟩
    ["h2c"] ",,,,   ,,\t~^%$(*&@(@$^^*(,h2c" "h2c" "h2c"
    (by decide) rfl (by decide)

/-- C6: while an upgrade is pending, a `101 Switching Protocols` whose
`Upgrade:` header is absent, or names a protocol other than the offered
one, surfaces an ingress error on the transaction — `onError` then detach —
and the session becomes Closed and destroys itself. -/
theorem upgrade_101_bad_header_errors (s : USession) (offered : String)
    (resp : Option String)
    (hoff : s.pendingUpgrade = some offered)
    (hbad : ∀ r, resp = some r → normalizeToken r ≠ offered) :
    (s.on101 resp).closed = true ∧
    (s.on101 resp).destroyed = true ∧
    (s.on101 resp).uevents = s.uevents ++ [UEvent.onError, UEvent.detach] := by
  have hfail : s.on101 resp = s.failUpgrade := by
    unfold USession.on101
    rw [hoff]
    cases resp with
    | none => rfl
    | some r =>
        dsimp only
        rw [if_neg (hbad r rfl)]
  rw [hfail]
  exact ⟨rfl, rfl, rfl⟩

/-- C6 witness: the scenarios of
`HTTPUpstreamSessionTest.HttpUpgrade101MissingUpgrade` (no `Upgrade:`
header) and `HttpUpgrade101BogusHeader` (`Upgrade: blarf` after offering
`spdy/3`): both close and destroy the session after `onError` and
detach. -/
theorem upgrade_101_bad_header_errors_witness :
    ((⟨1, 10, some "spdy/3", false, false, []⟩ : USession).on101
      none).closed = true ∧
    ((⟨1, 10, some "spdy/3", false, false, []⟩ : USession).on101
      none).destroyed = true ∧
    ((⟨1, 10, some "spdy/3", false, false, []⟩ : USession).on101
      none).uevents = [] ++ [UEvent.onError, UEvent.detach] ∧
    ((⟨1, 10, some "spdy/3", false, false, []⟩ : USession).on101
      (some "blarf")).closed = true ∧
    ((⟨1, 10, some "spdy/3", false, false, []⟩ : USession).on101
      (some "blarf")).destroyed = true ∧
    ((⟨1, 10, some "spdy/3", false, false, []⟩ : USession).on101
      (some "blarf")).uevents = [] ++ [UEvent.onError, UEvent.detach] := by
  have h1 := upgrade_101_bad_header_errors
    ⟨1, 10, some "spdy/3", false, false, []⟩ "spdy/3" none rfl
    (fun r hr => by cases hr)
  have h2 := upgrade_101_bad_header_errors
    ⟨1, 10, some "spdy/3", false, false, []⟩ "spdy/3" (some "blarf") rfl
    (fun r hr => by cases hr; decide)
  exact ⟨h1.1, h1.2.1, h1.2.2, h2.1, h2.2.1, h2.2.2⟩

/-- Observable events of the ingress push path: resets generated through
the codec and callbacks delivered to the control transaction. -/
inductive PEvent
  | rstStream (streamId : Nat) (code : ErrorCode)
  | onHeadersComplete (txn : Nat) (status : Nat)
  | onEOM (txn : Nat)
  | detach (txn : Nat)
  | onError (txn : Nat)
  deriving DecidableEq, Repr

/-- Modelled from the spec: the session state for ingress push dispatch
(§4.1): `txns` holds live transactions, `aborted` the streams already reset
(on which later frames draw a secondary "invalid stream" reset). -/
structure PSession where
  txns : List Nat
  aborted : List Nat
  closed : Bool
  pevents : List PEvent
  deriving DecidableEq, Repr

/-- Modelled from the spec: `onPushMessageBegin` (§4.1 ingress dispatch:
"if absent and the associated stream is invalid, generate RST_STREAM with
PROTOCOL_ERROR"); a push with a valid associated stream creates the
incoming transaction instead. -/
def PSession.onPushMessageBegin (s : PSession) (pushId assocId : Nat) :
    PSession :=
  if assocId ∈ s.txns then
    { s with txns := s.txns ++ [pushId] }
  else
    { s with aborted := s.aborted ++ [pushId],
             pevents := s.pevents ++
               [PEvent.rstStream pushId .PROTOCOL_ERROR] }

/-- Modelled from the spec: `onHeadersComplete` (§4.1): headers for a live
transaction are forwarded; on an already-reset stream the codec demands a
secondary "invalid stream" reset
(`MockHTTP2UpstreamTest.ServerPushInvalidAssoc` expects
`_SPDY_INVALID_STREAM`). -/
def PSession.onHeadersComplete (s : PSession) (id status : Nat) : PSession :=
  if id ∈ s.txns then
    { s with pevents := s.pevents ++ [PEvent.onHeadersComplete id status] }
  else if id ∈ s.aborted then
    { s with pevents := s.pevents ++
        [PEvent.rstStream id .SPDY_INVALID_STREAM] }
  else s

/-- Modelled from the spec: `onMessageComplete` (§4.1): EOM for a live
transaction completes it normally; on an already-reset stream another
secondary reset is drawn. -/
def PSession.onMessageComplete (s : PSession) (id : Nat) : PSession :=
  if id ∈ s.txns then
    { s with txns := s.txns.filter (fun x => decide (x ≠ id)),
             pevents := s.pevents ++ [PEvent.onEOM id, PEvent.detach id] }
  else if id ∈ s.aborted then
    { s with pevents := s.pevents ++
        [PEvent.rstStream id .SPDY_INVALID_STREAM] }
  else s

/-- The ingress sequence of `MockHTTP2UpstreamTest.ServerPushInvalidAssoc`:
a push begins with an invalid associated stream, its headers and EOM
arrive, then the control stream's own response arrives and completes. -/
def pushInvalidAssocScenario (s : PSession) (ctrl pushId assocId : Nat) :
    PSession :=
  ((((s.onPushMessageBegin pushId assocId).onHeadersComplete pushId
      200).onMessageComplete pushId).onHeadersComplete ctrl
      200).onMessageComplete ctrl

/-- C7: a server push whose associated stream id names no known transaction
draws RST_STREAM with PROTOCOL_ERROR on the pushed stream (plus the
secondary "invalid stream" resets the codec demands on the later frames of
that stream) without tearing down the session: the control transaction
still receives its own response — headers, EOM — and completes with a
normal detach and no error. -/
theorem server_push_invalid_assoc (s : PSession) (ctrl pushId assocId : Nat)
    (hctrl : ctrl ∈ s.txns) (hassoc : assocId ∉ s.txns)
    (hpushTxn : pushId ∉ s.txns)
    (hclosed : s.closed = false)
    (hnoerr : PEvent.onError ctrl ∉ s.pevents) :
    (pushInvalidAssocScenario s ctrl pushId assocId).pevents =
      s.pevents ++ [PEvent.rstStream pushId .PROTOCOL_ERROR,
        PEvent.rstStream pushId .SPDY_INVALID_STREAM,
        PEvent.rstStream pushId .SPDY_INVALID_STREAM,
        PEvent.onHeadersComplete ctrl 200,
        PEvent.onEOM ctrl, PEvent.detach ctrl] ∧
    (pushInvalidAssocScenario s ctrl pushId assocId).closed = false ∧
    PEvent.onError ctrl ∉
      (pushInvalidAssocScenario s ctrl pushId assocId).pevents := by
  have hstep : pushInvalidAssocScenario s ctrl pushId assocId =
      { s with txns := s.txns.filter (fun x => decide (x ≠ ctrl)),
               aborted := s.aborted ++ [pushId],
               pevents := s.pevents ++
                 [PEvent.rstStream pushId .PROTOCOL_ERROR,
                  PEvent.rstStream pushId .SPDY_INVALID_STREAM,
                  PEvent.rstStream pushId .SPDY_INVALID_STREAM,
                  PEvent.onHeadersComplete ctrl 200,
                  PEvent.onEOM ctrl, PEvent.detach ctrl] } := by
    unfold pushInvalidAssocScenario
    simp only [PSession.onPushMessageBegin, PSession.onHeadersComplete,
      PSession.onMessageComplete]
    simp [hassoc, hpushTxn, hctrl]
  refine ⟨?_, ?_, ?_⟩
  · rw [hstep]
  · rw [hstep]
    exact hclosed
  · rw [hstep]
    dsimp only
    intro hmem
    rcases List.mem_append.mp hmem with h1 | h1
    · exact hnoerr h1
    · simp at h1

/-- C7 witness: the exact ids of
`MockHTTP2UpstreamTest.ServerPushInvalidAssoc` — control stream 1, push
stream 2 with unknown associated stream 3: one PROTOCOL_ERROR reset, two
secondary invalid-stream resets, and the control stream completes
normally. -/
theorem server_push_invalid_assoc_witness :
    (pushInvalidAssocScenario ⟨[1], [], false, []⟩ 1 2 3).pevents =
      [] ++ [PEvent.rstStream 2 .PROTOCOL_ERROR,
        PEvent.rstStream 2 .SPDY_INVALID_STREAM,
        PEvent.rstStream 2 .SPDY_INVALID_STREAM,
        PEvent.onHeadersComplete 1 200,
        PEvent.onEOM 1, PEvent.detach 1] ∧
    (pushInvalidAssocScenario ⟨[1], [], false, []⟩ 1 2 3).closed = false ∧
    PEvent.onError 1 ∉
      (pushInvalidAssocScenario ⟨[1], [], false, []⟩ 1 2 3).pevents :=
  server_push_invalid_assoc ⟨[1], [], false, []⟩ 1 2 3 (by decide)
    (by decide) (by decide) rfl (by decide)

/-- The write-side session state of the drain-before-headers scenario: the
mocked codec of `MockHTTPUpstreamTest` serializes a HEADERS frame as the
bytes "HEADERS" and a GOAWAY as the bytes "GOAWAY". -/
structure WSession where
  draining : Bool
  goawayPending : Bool
  pendingEgress : List String
  wire : String
  deriving DecidableEq, Repr

/-- Modelled from the spec: `drain()` marks the session draining and makes
a GOAWAY due on the next flush (§4.1). -/
def WSession.drain (w : WSession) : WSession :=
  { w with draining := true, goawayPending := true }

/-- A transaction serializes its HEADERS frame into the pending egress. -/
def WSession.sendHeaders (w : WSession) : WSession :=
  { w with pendingEgress := w.pendingEgress ++ ["HEADERS"] }

/-- Modelled from the spec: the write loop flushes the pending transaction
egress and emits the due GOAWAY at the end of the same flush.  The
resulting byte order — HEADERS first, then GOAWAY — is pinned by the
assertion `EXPECT_EQ(..., string("HEADERSGOAWAY"))` of
`MockHTTPUpstreamTest.GoawayPreHeaders`
(HTTPUpstreamSessionTest.cpp:1977). -/
def WSession.flush (w : WSession) : WSession :=
  { w with pendingEgress := [],
           goawayPending := false,
           wire := w.wire ++ String.join w.pendingEgress ++
             (if w.goawayPending then "GOAWAY" else "") }

/-- The fresh write-side session. -/
def WSession.start : WSession :=
  ⟨false, false, [], ""⟩

/-- The run of `MockHTTPUpstreamTest.GoawayPreHeaders`: open a transaction,
drain, send its headers, flush. -/
def goawayPreHeadersScenario : WSession :=
  ((WSession.start.drain).sendHeaders).flush

/-- C9 counterexample: in the `GoawayPreHeaders` run the wire holds
"HEADERSGOAWAY" — the HEADERS frame bytes precede the GOAWAY bytes — so the
GOAWAY bytes are not emitted before the HEADERS bytes. -/
theorem goaway_not_emitted_before_headers :
    goawayPreHeadersScenario.wire = "HEADERS" ++ "GOAWAY" ∧
    goawayPreHeadersScenario.wire ≠ "GOAWAY" ++ "HEADERS" := by
  constructor
  · decide
  · decide

/-- C9 amended: when `drain()` is issued while an open transaction has not
yet flushed its HEADERS frame, the HEADERS bytes are emitted on the wire
before the GOAWAY bytes, and this ordering is exact: the flush writes the
pending egress first and the GOAWAY last. -/
theorem headers_emitted_before_goaway (w : WSession)
    (hg : w.goawayPending = true) :
    (w.flush).wire = w.wire ++ String.join w.pendingEgress ++ "GOAWAY" ∧
    goawayPreHeadersScenario.wire = "HEADERS" ++ "GOAWAY" := by
  constructor
  · rw [WSession.flush, hg]
    rfl
  · decide

/-- C9 amended witness: the `GoawayPreHeaders` run itself — flushing after
`drain()` with one pending HEADERS frame yields "HEADERS" then "GOAWAY" on
the wire. -/
theorem headers_emitted_before_goaway_witness :
    (((WSession.start.drain).sendHeaders).flush).wire =
      ((WSession.start.drain).sendHeaders).wire ++
        String.join ((WSession.start.drain).sendHeaders).pendingEgress ++
        "GOAWAY" ∧
    goawayPreHeadersScenario.wire = "HEADERS" ++ "GOAWAY" :=
  headers_emitted_before_goaway ((WSession.start.drain).sendHeaders) rfl

end Upstream
